import Mathlib

/-!
Verification of the ha-linky core (custom_components/ha_linky) against its
natural-language specification.

Shallow embedding conventions:
* Naive local datetimes are whole minutes since 1970-01-01T00:00 (an `Int`).
  Python `datetime` comparison coincides with integer comparison and
  `timedelta` arithmetic with integer addition; `date` values are whole days
  since the epoch.
* Python floats are modelled as rationals (`ℚ`); Python `round` (banker's
  rounding, round half to even) is modelled exactly on rationals.
* Fallible code (`KeyError` on a missing dict field) returns `Except`.
* Dict fields that may be absent are `Option`; Python truthiness of the
  relevant values is modelled by explicit helpers.
-/

namespace HaLinky

/-- `dt.hour` for a datetime in minutes since the epoch. -/
def hourOf (t : Int) : Int := (t.emod 1440).fdiv 60

/-- `dt.minute` for a datetime in minutes since the epoch. -/
def minuteOf (t : Int) : Int := t.emod 60

/-- `dt.date()` as whole days since the epoch. -/
def dayOf (t : Int) : Int := t.fdiv 1440

/-- Python `dt.weekday()` (Monday = 0); 1970-01-01 was a Thursday (= 3). -/
def pyWeekday (t : Int) : Int := (dayOf t + 3).emod 7

/-- `_WEEKDAY_MAP` from cost.py composed with `weekday()`. -/
def weekdayAbbr (t : Int) : String :=
  match (pyWeekday t).toNat with
  | 0 => "mon"
  | 1 => "tue"
  | 2 => "wed"
  | 3 => "thu"
  | 4 => "fri"
  | 5 => "sat"
  | 6 => "sun"
  | _ => ""

/-- Python `round` on a rational: round half to even (banker's rounding). -/
def pyRound (q : ℚ) : Int :=
  let f : Int := ⌊q⌋
  if q - f < 1/2 then f
  else if 1/2 < q - f then f + 1
  else if f % 2 = 0 then f
  else f + 1

/-- Python `round(q, 2)`. -/
def pyRound2 (q : ℚ) : ℚ := (pyRound (q * 100) : ℚ) / 100

/-- `DataPoint` from statistics_helper.py: ISO-8601 date (modelled in minutes
since the epoch) and a value in Wh or EUR (modelled as a rational). -/
@[ext]
structure DataPoint where
  date : Int
  value : ℚ
deriving DecidableEq, Repr

/-- `StatisticDataPoint` from statistics_helper.py. -/
@[ext]
structure StatisticDataPoint where
  start : Int
  state : ℚ
  sum : ℚ
deriving DecidableEq, Repr

/-- A raw interval reading from the Conso API, as consumed by
`format_daily_data` / `format_load_curve`.  A dict field that may be absent is
an `Option`; the numeric value is modelled post-`float` as a rational. -/
structure RawReading where
  date : Option Int
  value : Option ℚ
  interval_length : Option String
deriving DecidableEq, Repr

/-- A CSV history record (`{'debut': ISO date, 'kW': power}`) as consumed by
`format_history_file`; `kW` is modelled post-parsing (comma and "null"
substitution followed by `float`) as a rational. -/
structure CsvRecord where
  debut : Option Int
  kW : Option ℚ
deriving DecidableEq, Repr

/-- `format_daily_data` from statistics_helper.py.  `r["date"]` and
`r["value"]` raise `KeyError` when the field is missing, modelled as
`Except.error`. -/
def format_daily_data : List RawReading → Except String (List DataPoint)
  | [] => .ok []
  | r :: rest =>
    match r.date with
    | none => .error "KeyError: date"
    | some d =>
      match r.value with
      | none => .error "KeyError: value"
      | some v => (format_daily_data rest).map (fun l => ⟨d, v⟩ :: l)

/-- First maximal digit run in a character list (Python `re.search` with a
digits pattern). -/
def firstDigitRun : List Char → Option (List Char)
  | [] => none
  | c :: cs =>
    if c.isDigit then some (c :: cs.takeWhile Char.isDigit)
    else firstDigitRun cs

/-- Digits to a natural number. -/
def digitsToNat (ds : List Char) : Nat :=
  ds.foldl (fun a c => 10 * a + (c.toNat - 48)) 0

/-- Minutes extracted from the `interval_length` descriptor: the first digit
run of the string, defaulting to 1 when the field is absent or has no digits
(matches `format_load_curve`). -/
def intervalMinutes (s : Option String) : Int :=
  match s with
  | none => 1
  | some str =>
    match firstDigitRun str.data with
    | none => 1
    | some ds => (digitsToNat ds : Int)

/-- `format_load_curve` from statistics_helper.py: shifts each timestamp back
by the declared interval length (the API reports interval ends). -/
def format_load_curve : List RawReading → Except String (List DataPoint)
  | [] => .ok []
  | r :: rest =>
    match r.date with
    | none => .error "KeyError: date"
    | some d =>
      match r.value with
      | none => .error "KeyError: value"
      | some v =>
        (format_load_curve rest).map
          (fun l => ⟨d - intervalMinutes r.interval_length, v⟩ :: l)

/-- `format_history_file` from statistics_helper.py: a missing `kW` field
defaults to "0" (`r.get("kW", "0")`), a missing `debut` field raises
`KeyError`; kW is converted to Wh by multiplying by 1000. -/
def format_history_file : List CsvRecord → Except String (List DataPoint)
  | [] => .ok []
  | r :: rest =>
    match r.debut with
    | none => .error "KeyError: debut"
    | some d =>
      (format_history_file rest).map (fun l => ⟨d, (r.kW.getD 0) * 1000⟩ :: l)

/-- Truncation of a datetime to the hour
(`dt.replace(minute=0, second=0, microsecond=0)`). -/
def hourKey (t : Int) : Int := 60 * t.fdiv 60

/-- `group_by_hour` from statistics_helper.py: group points by their hour key,
average each group, round to 2 decimals, and emit one point per distinct hour
key in ascending key order (Python sorts the ISO-string keys, which for
uniform naive timestamps coincides with chronological order). -/
def group_by_hour (data : List DataPoint) : List DataPoint :=
  let keys := ((data.map fun p => hourKey p.date).dedup).insertionSort (· ≤ ·)
  keys.map fun k =>
    let values := (data.filter fun p => hourKey p.date = k).map DataPoint.value
    ⟨k, pyRound2 (values.sum / (values.length : ℚ))⟩

/-- Accumulator form of `format_as_statistics`: `acc` is the sum of the
previously emitted points (`result[i-1].sum`). -/
def format_as_statistics_go (acc : ℚ) : List DataPoint → List StatisticDataPoint
  | [] => []
  | p :: rest =>
    (⟨p.date, p.value, p.value + acc⟩ : StatisticDataPoint)
      :: format_as_statistics_go (p.value + acc) rest

/-- `format_as_statistics` from statistics_helper.py: cumulative sum starting
from base 0. -/
def format_as_statistics (data : List DataPoint) : List StatisticDataPoint :=
  format_as_statistics_go 0 data

/-- A cost rule dict from cost.py.  `after` / `before` are modelled post-parse
as an (hour, minute) pair with the minute defaulting to 0 (a Python-falsy
filter string is `none`).  Date fields are modelled post-`_parse_date`. -/
structure CostConfig where
  price : Option ℚ
  entity_id : Option String
  start_date : Option Int
  end_date : Option Int
  weekday : Option (List String)
  after : Option (Int × Int)
  before : Option (Int × Int)
deriving DecidableEq, Repr

/-- A flat-priced rule with no filters (`{price: p}`). -/
def flatRule (p : ℚ) : CostConfig := ⟨some p, none, none, none, none, none, none⟩

/-- Python truthiness of `config.get("price")`: `None` and `0` are falsy. -/
def priceTruthy : Option ℚ → Bool
  | none => false
  | some p => decide (p ≠ 0)

/-- Python truthiness of an optional string: `None` and `""` are falsy. -/
def strTruthy : Option String → Bool
  | none => false
  | some s => !s.isEmpty

/-- The chain of `continue` conditions in `_find_matching_cost_config`
(cost.py lines 73-118): a config is skipped for a point iff one of these
holds. -/
def configSkips (t : Int) (c : CostConfig) : Bool :=
  (!priceTruthy c.price && !strTruthy c.entity_id)
  || (match c.start_date with
      | some s => decide (t < s)
      | none => false)
  || (match c.end_date with
      | some e => decide (e ≤ t)
      | none => false)
  || (match c.weekday with
      | some ws => !ws.isEmpty && !(ws.contains (weekdayAbbr t))
      | none => false)
  || (match c.after with
      | some hm =>
        decide (hourOf t < hm.1)
          || (decide (hourOf t = hm.1) && decide (minuteOf t < hm.2))
      | none => false)
  || (match c.before with
      | some hm =>
        decide (hm.1 < hourOf t)
          || (decide (hourOf t = hm.1) && decide (hm.2 ≤ minuteOf t))
      | none => false)

/-- `_find_matching_cost_config` from cost.py: first config not skipped. -/
def find_matching_cost_config (t : Int) : List CostConfig → Option CostConfig
  | [] => none
  | c :: cs =>
    if configSkips t c then find_matching_cost_config t cs else some c

/-- One sample of an entity price history, as built in
`LinkyCoordinator._fetch_entity_history`. -/
structure PriceEntry where
  timestamp : Int
  value : ℚ
  unit : Option String
deriving DecidableEq, Repr

/-- `EntityHistoryData = dict[str, list[dict]]`, as an association list. -/
def EntityHistoryData := List (String × List PriceEntry)

/-- `entity_history.get(entity_id)`. -/
def historyLookup (h : EntityHistoryData) (eid : String) :
    Option (List PriceEntry) :=
  (h.find? (fun kv => kv.1 == eid)).map Prod.snd

/-- Python `needle in haystack` on strings. -/
def strContains (hay needle : String) : Bool :=
  decide (needle.data <:+: hay.data)

/-- Python `str.lower()`, modelled character-wise (ASCII case mapping, which
agrees with Python on the unit strings at hand). -/
def pyLower (s : String) : String := ⟨s.data.map Char.toLower⟩

/-- "cent" / "¢" / "c€" marker check of `_convert_price_unit` (applied to the
lowercased unit). -/
def hasCentsMarker (lower : String) : Bool :=
  strContains lower "c€" || strContains lower "cent" || strContains lower "¢"

/-- "eur/mwh" / "€/mwh" marker check of `_convert_price_unit`. -/
def hasEurPerMwhMarker (lower : String) : Bool :=
  strContains lower "eur/mwh" || strContains lower "€/mwh"

/-- "cent/mwh" / "c€/mwh" marker check of `_convert_price_unit`. -/
def hasCentPerMwhMarker (lower : String) : Bool :=
  strContains lower "cent/mwh" || strContains lower "c€/mwh"

/-- `_convert_price_unit` from cost.py (cost.py lines 153-177). -/
def convert_price_unit (price : ℚ) (unit : Option String) : ℚ :=
  match unit with
  | none => price
  | some u =>
    if u.isEmpty then price
    else
      let lower := pyLower u
      if hasCentsMarker lower then price / 100
      else if hasEurPerMwhMarker lower then price / 1000
      else if hasCentPerMwhMarker lower then price / 100000
      else price

/-- The scan loop of `_find_price_from_entity_history`: walk the history in
order, remembering the last entry seen, and `break` at the first entry after
the point. -/
def scanPriceHistory (t : Int) :
    List PriceEntry → Option (ℚ × Option String) → Option (ℚ × Option String)
  | [], acc => acc
  | e :: es, acc =>
    if t < e.timestamp then acc
    else scanPriceHistory t es (some (e.value, e.unit))

/-- `_find_price_from_entity_history` from cost.py (lines 125-150): `None`
when the entity is unknown, its history empty, or no sample is at or before
the point; otherwise the last kept sample's value put through the unit
conversion. -/
def find_price_from_entity_history (t : Int) (eid : String)
    (h : EntityHistoryData) : Option ℚ :=
  match historyLookup h eid with
  | none => none
  | some hist =>
    if hist.isEmpty then none
    else
      match scanPriceHistory t hist none with
      | none => none
      | some pu => some (convert_price_unit pu.1 pu.2)

/-- Python truthiness of the optional `entity_history` dict: `None` and the
empty dict are falsy. -/
def ehTruthy : Option EntityHistoryData → Bool
  | none => false
  | some l => !l.isEmpty

/-- The price-resolution block of `compute_costs` (cost.py lines 36-47) for an
already matched config: the entity branch when the config's `entity_id` and
the history dict are both truthy, otherwise the config's own `price` (with
`None` meaning skip). -/
def resolve_price (t : Int) (m : CostConfig) (eh : Option EntityHistoryData) :
    Option ℚ :=
  if strTruthy m.entity_id && ehTruthy eh then
    find_price_from_entity_history t (m.entity_id.getD "") (eh.getD [])
  else
    m.price

/-- `compute_costs` from cost.py (lines 23-65, logging elided). -/
def compute_costs (energy : List DataPoint) (cfgs : List CostConfig)
    (eh : Option EntityHistoryData) : List DataPoint :=
  match energy with
  | [] => []
  | p :: rest =>
    match find_matching_cost_config p.date cfgs with
    | none => compute_costs rest cfgs eh
    | some m =>
      match resolve_price p.date m eh with
      | none => compute_costs rest cfgs eh
      | some price =>
        (⟨p.date, (pyRound (price * p.value) : ℚ) / 1000⟩ : DataPoint)
          :: compute_costs rest cfgs eh

/-- One request made by `get_energy_data`: start date, end date (days since
the epoch) and which endpoint family was used. -/
structure FetchCall where
  start : Int
  stop : Int
  loadCurve : Bool
deriving DecidableEq, Repr

/-- The mutable state of `ConsoApiClient.get_energy_data`: accumulated tiers
(oldest first, via `history.insert(0, data)`), the day-offset cursor, the
`limit_reached` flag, and a trace of the requests issued. -/
structure FetchState (α : Type) where
  history : List (List α)
  offset : Int
  limit_reached : Bool
  calls : List FetchCall
deriving Repr

/-- The body of the daily loop in `get_energy_data` (api.py lines 173-208).
Returns the new state and whether the loop `break`s.  Both arms of the
`except` clause end in `break`, so an error always stops the loop; the
ENEDIS_LIMIT_ERRORS pattern match only changes logging. -/
def dailyTierStep (α : Type) (today : Int) (firstDay : Option Int)
    (daily : Int → Int → Except String (List α)) (st : FetchState α) :
    FetchState α × Bool :=
  let fromDate := today - (st.offset + 179)
  let clamp :=
    match firstDay with
    | some fd => decide (fromDate ≤ fd)
    | none => false
  let fromStr := if clamp then firstDay.getD 0 else fromDate
  let toStr := today - st.offset
  let limit := st.limit_reached || clamp
  match daily fromStr toStr with
  | .ok data =>
    (⟨data :: st.history, st.offset + 179, limit,
      st.calls ++ [⟨fromStr, toStr, false⟩]⟩, false)
  | .error _ =>
    (⟨st.history, st.offset, limit, st.calls ++ [⟨fromStr, toStr, false⟩]⟩,
      true)

/-- One pass of `for loop in range(2)` in `get_energy_data`: if
`limit_reached` is set, or the loop already `break`-ed (second component),
the iteration is a no-op, otherwise it runs the daily tier body. -/
def dailyIter (α : Type) (today : Int) (firstDay : Option Int)
    (daily : Int → Int → Except String (List α))
    (stbr : FetchState α × Bool) : FetchState α × Bool :=
  if stbr.1.limit_reached || stbr.2 then stbr
  else dailyTierStep α today firstDay daily stbr.1

/-- The two daily-tier loop iterations of `get_energy_data` applied after
tier 1. -/
def runTiers (α : Type) (today : Int) (firstDay : Option Int)
    (daily : Int → Int → Except String (List α)) (st1 : FetchState α) :
    FetchState α :=
  (dailyIter α today firstDay daily
    (dailyIter α today firstDay daily (st1, false))).1

/-- `ConsoApiClient.get_energy_data` (api.py lines 128-225): tier 1 fetches
the last 7 days of load curve (non-fatal on error), then up to two daily
tiers of 179 days each, stopping early when `limit_reached` was set or a
daily call failed.  The two endpoints are oracles; the result is the
flattened points (oldest tier first), the request trace, and the final
`limit_reached` flag. -/
def get_energy_data (α : Type) (today : Int) (firstDay : Option Int)
    (loadCurve daily : Int → Int → Except String (List α)) :
    List α × List FetchCall × Bool :=
  let fromDate := today - 7
  let clamp1 :=
    match firstDay with
    | some fd => decide (fromDate ≤ fd)
    | none => false
  let fromStr := if clamp1 then firstDay.getD 0 else fromDate
  let st1 : FetchState α :=
    match loadCurve fromStr today with
    | .ok data => ⟨[data], 7, clamp1, [⟨fromStr, today, true⟩]⟩
    | .error _ => ⟨[], 0, clamp1, [⟨fromStr, today, true⟩]⟩
  let st3 := runTiers α today firstDay daily st1
  (st3.history.flatten, st3.calls, st3.limit_reached)

/-- The skip decision of `LinkyCoordinator._async_incremental_sync`
(coordinator.py lines 154-171): `none` when the run is skipped, otherwise
`some first_day` (days since the epoch) to fetch from.  `lastDt` and `now`
are datetimes in minutes since the epoch; 2 days = 2880 minutes. -/
def incremental_sync_decision (lastDt now : Int) : Option Int :=
  if lastDt < now - 2880 ∧ 6 ≤ hourOf now then some (dayOf (lastDt + 1440))
  else none

/-- Spec §4.3, transcribed: running sums with `sum_i = value_i + sum_{i-1}`
and accumulator `acc` (`sum_0 = value_0` at `acc = 0`). -/
def specRunningSums (acc : ℚ) : List ℚ → List ℚ
  | [] => []
  | v :: vs => (v + acc) :: specRunningSums (v + acc) vs

-- --------------------------------------------------------------------------
-- Helper lemmas
-- --------------------------------------------------------------------------

theorem format_as_statistics_go_map_state (acc : ℚ) (data : List DataPoint) :
    (format_as_statistics_go acc data).map StatisticDataPoint.state
      = data.map DataPoint.value := by
  induction data generalizing acc with
  | nil => rfl
  | cons p rest ih => simp [format_as_statistics_go, ih]

theorem format_as_statistics_go_map_sum (acc : ℚ) (data : List DataPoint) :
    (format_as_statistics_go acc data).map StatisticDataPoint.sum
      = specRunningSums acc (data.map DataPoint.value) := by
  induction data generalizing acc with
  | nil => rfl
  | cons p rest ih => simp [format_as_statistics_go, specRunningSums, ih]

theorem specRunningSums_sorted (acc : ℚ) (vs : List ℚ)
    (h : ∀ v ∈ vs, 0 ≤ v) :
    (specRunningSums acc vs).Sorted (· ≤ ·)
      ∧ ∀ x ∈ specRunningSums acc vs, acc ≤ x := by
  induction vs generalizing acc with
  | nil => simp [specRunningSums]
  | cons v vs ih =>
    have hv : 0 ≤ v := h v (by simp)
    obtain ⟨hs, hb⟩ := ih (v + acc) (fun w hw => h w (by simp [hw]))
    refine ⟨List.sorted_cons.mpr ⟨hb, hs⟩, ?_⟩
    intro x hx
    rcases List.mem_cons.mp hx with rfl | hx
    · linarith
    · have := hb x hx
      linarith

theorem scanPriceHistory_sorted (t : Int) (hist : List PriceEntry)
    (acc : Option (ℚ × Option String))
    (hs : hist.Sorted (fun a b => a.timestamp ≤ b.timestamp)) :
    scanPriceHistory t hist acc
      = match (hist.filter fun e => decide (e.timestamp ≤ t)).getLast? with
        | none => acc
        | some e => some (e.value, e.unit) := by
  induction hist generalizing acc with
  | nil => rfl
  | cons e es ih =>
    obtain ⟨hhead, htail⟩ := List.pairwise_cons.mp hs
    by_cases hlt : t < e.timestamp
    · have hfe : ¬(e.timestamp ≤ t) := by omega
      have hfes : (es.filter fun x => decide (x.timestamp ≤ t)) = [] := by
        refine List.filter_eq_nil_iff.mpr (fun x hx => ?_)
        have := hhead x hx
        simp only [decide_eq_true_eq]
        omega
      simp [scanPriceHistory, hlt, hfe, hfes]
    · have hle : e.timestamp ≤ t := by omega
      rw [show scanPriceHistory t (e :: es) acc
          = scanPriceHistory t es (some (e.value, e.unit)) by
        simp [scanPriceHistory, hlt]]
      rw [ih (some (e.value, e.unit)) htail]
      have hcons : ((e :: es).filter fun x => decide (x.timestamp ≤ t))
          = e :: (es.filter fun x => decide (x.timestamp ≤ t)) := by
        simp [hle]
      rw [hcons]
      cases hf : es.filter fun x => decide (x.timestamp ≤ t) with
      | nil => simp
      | cons b l =>
        have hx := List.getLast?_eq_getLast (b :: l) (by simp)
        simp [List.getLast?_cons_cons, hx]

theorem group_by_hour_map_date (data : List DataPoint) :
    (group_by_hour data).map (fun p => p.date)
      = ((data.map fun p => hourKey p.date).dedup).insertionSort (· ≤ ·) := by
  simp only [group_by_hour, List.map_map]
  exact List.map_id' _

theorem compute_costs_dates_sublist (energy : List DataPoint)
    (cfgs : List CostConfig) (eh : Option EntityHistoryData) :
    ((compute_costs energy cfgs eh).map fun p => p.date).Sublist
      (energy.map fun p => p.date) := by
  induction energy with
  | nil => simp [compute_costs]
  | cons p rest ih =>
    cases hm : find_matching_cost_config p.date cfgs with
    | none => simpa [compute_costs, hm] using ih.cons p.date
    | some m =>
      cases hp : resolve_price p.date m eh with
      | none => simpa [compute_costs, hm, hp] using ih.cons p.date
      | some price => simpa [compute_costs, hm, hp] using ih.cons₂ p.date

theorem filter_date_eq_singleton (data : List DataPoint) (p : DataPoint)
    (hnd : (data.map fun q => q.date).Nodup) (hp : p ∈ data) :
    data.filter (fun q => decide (q.date = p.date)) = [p] := by
  induction data with
  | nil => cases hp
  | cons a rest ih =>
    rw [List.map_cons, List.nodup_cons] at hnd
    obtain ⟨hna, hnd'⟩ := hnd
    rcases List.mem_cons.mp hp with rfl | hp'
    · have hrest : rest.filter (fun q => decide (q.date = p.date)) = [] := by
        refine List.filter_eq_nil_iff.mpr (fun q hq hq' => ?_)
        simp only [decide_eq_true_eq] at hq'
        exact hna (hq' ▸ List.mem_map_of_mem (fun q => q.date) hq)
      simp [List.filter_cons, hrest]
    · have hne : ¬(a.date = p.date) := by
        intro hcontra
        exact hna (hcontra ▸ List.mem_map_of_mem (fun q => q.date) hp')
      simp only [List.filter_cons, decide_eq_true_eq, hne, if_false]
      exact ih hnd' hp'

theorem dailyTierStep_clamp_ok (α : Type) (today fd : Int)
    (dl : Int → Int → Except String (List α)) (st : FetchState α)
    (data : List α) (h : today - (st.offset + 179) ≤ fd)
    (hd : dl fd (today - st.offset) = .ok data) :
    dailyTierStep α today (some fd) dl st
      = (⟨data :: st.history, st.offset + 179, true,
          st.calls ++ [⟨fd, today - st.offset, false⟩]⟩, false) := by
  simp only [dailyTierStep, decide_eq_true h, if_true, Option.getD_some, hd,
    Bool.or_true]

theorem dailyTierStep_clamp_err (α : Type) (today fd : Int)
    (dl : Int → Int → Except String (List α)) (st : FetchState α)
    (e : String) (h : today - (st.offset + 179) ≤ fd)
    (hd : dl fd (today - st.offset) = .error e) :
    dailyTierStep α today (some fd) dl st
      = (⟨st.history, st.offset, true,
          st.calls ++ [⟨fd, today - st.offset, false⟩]⟩, true) := by
  simp only [dailyTierStep, decide_eq_true h, if_true, Option.getD_some, hd,
    Bool.or_true]

theorem dailyTierStep_noclamp_ok (α : Type) (today fd : Int)
    (dl : Int → Int → Except String (List α)) (st : FetchState α)
    (data : List α) (h : ¬(today - (st.offset + 179) ≤ fd))
    (hd : dl (today - (st.offset + 179)) (today - st.offset) = .ok data) :
    dailyTierStep α today (some fd) dl st
      = (⟨data :: st.history, st.offset + 179, st.limit_reached,
          st.calls ++ [⟨today - (st.offset + 179), today - st.offset,
            false⟩]⟩, false) := by
  simp only [dailyTierStep, decide_eq_false h, Bool.false_eq_true, if_false,
    hd, Bool.or_false]

theorem dailyTierStep_noclamp_err (α : Type) (today fd : Int)
    (dl : Int → Int → Except String (List α)) (st : FetchState α)
    (e : String) (h : ¬(today - (st.offset + 179) ≤ fd))
    (hd : dl (today - (st.offset + 179)) (today - st.offset) = .error e) :
    dailyTierStep α today (some fd) dl st
      = (⟨st.history, st.offset, st.limit_reached,
          st.calls ++ [⟨today - (st.offset + 179), today - st.offset,
            false⟩]⟩, true) := by
  simp only [dailyTierStep, decide_eq_false h, Bool.false_eq_true, if_false,
    hd, Bool.or_false]

theorem dailyIter_stop1 (α : Type) (today : Int) (fday : Option Int)
    (dl : Int → Int → Except String (List α)) (stbr : FetchState α × Bool)
    (h : stbr.1.limit_reached = true) :
    dailyIter α today fday dl stbr = stbr := by
  simp [dailyIter, h]

theorem dailyIter_stop2 (α : Type) (today : Int) (fday : Option Int)
    (dl : Int → Int → Except String (List α)) (stbr : FetchState α × Bool)
    (h : stbr.2 = true) :
    dailyIter α today fday dl stbr = stbr := by
  simp [dailyIter, h]

theorem dailyIter_go (α : Type) (today : Int) (fday : Option Int)
    (dl : Int → Int → Except String (List α)) (stbr : FetchState α × Bool)
    (h1 : stbr.1.limit_reached = false) (h2 : stbr.2 = false) :
    dailyIter α today fday dl stbr = dailyTierStep α today fday dl stbr.1 := by
  simp [dailyIter, h1, h2]

theorem runTiers_limit (α : Type) (today : Int) (fday : Option Int)
    (dl : Int → Int → Except String (List α)) (st1 : FetchState α)
    (h : st1.limit_reached = true) :
    runTiers α today fday dl st1 = st1 := by
  simp [runTiers, dailyIter, h]

theorem get_energy_data_clamp1_ok (α : Type) (today fd : Int)
    (lc dl : Int → Int → Except String (List α)) (d : List α)
    (h1 : today - 7 ≤ fd) (hlc : lc fd today = .ok d) :
    get_energy_data α today (some fd) lc dl
      = ((runTiers α today (some fd) dl
            ⟨[d], 7, true, [⟨fd, today, true⟩]⟩).history.flatten,
         (runTiers α today (some fd) dl
            ⟨[d], 7, true, [⟨fd, today, true⟩]⟩).calls,
         (runTiers α today (some fd) dl
            ⟨[d], 7, true, [⟨fd, today, true⟩]⟩).limit_reached) := by
  simp only [get_energy_data, decide_eq_true h1, if_true, Option.getD_some,
    hlc]

theorem get_energy_data_clamp1_err (α : Type) (today fd : Int)
    (lc dl : Int → Int → Except String (List α)) (e : String)
    (h1 : today - 7 ≤ fd) (hlc : lc fd today = .error e) :
    get_energy_data α today (some fd) lc dl
      = ((runTiers α today (some fd) dl
            ⟨[], 0, true, [⟨fd, today, true⟩]⟩).history.flatten,
         (runTiers α today (some fd) dl
            ⟨[], 0, true, [⟨fd, today, true⟩]⟩).calls,
         (runTiers α today (some fd) dl
            ⟨[], 0, true, [⟨fd, today, true⟩]⟩).limit_reached) := by
  simp only [get_energy_data, decide_eq_true h1, if_true, Option.getD_some,
    hlc]

theorem get_energy_data_noclamp1_ok (α : Type) (today fd : Int)
    (lc dl : Int → Int → Except String (List α)) (d : List α)
    (h1 : ¬(today - 7 ≤ fd)) (hlc : lc (today - 7) today = .ok d) :
    get_energy_data α today (some fd) lc dl
      = ((runTiers α today (some fd) dl
            ⟨[d], 7, false, [⟨today - 7, today, true⟩]⟩).history.flatten,
         (runTiers α today (some fd) dl
            ⟨[d], 7, false, [⟨today - 7, today, true⟩]⟩).calls,
         (runTiers α today (some fd) dl
            ⟨[d], 7, false, [⟨today - 7, today, true⟩]⟩).limit_reached) := by
  simp only [get_energy_data, decide_eq_false h1, Bool.false_eq_true,
    if_false, hlc]

theorem get_energy_data_noclamp1_err (α : Type) (today fd : Int)
    (lc dl : Int → Int → Except String (List α)) (e : String)
    (h1 : ¬(today - 7 ≤ fd)) (hlc : lc (today - 7) today = .error e) :
    get_energy_data α today (some fd) lc dl
      = ((runTiers α today (some fd) dl
            ⟨[], 0, false, [⟨today - 7, today, true⟩]⟩).history.flatten,
         (runTiers α today (some fd) dl
            ⟨[], 0, false, [⟨today - 7, today, true⟩]⟩).calls,
         (runTiers α today (some fd) dl
            ⟨[], 0, false, [⟨today - 7, today, true⟩]⟩).limit_reached) := by
  simp only [get_energy_data, decide_eq_false h1, Bool.false_eq_true,
    if_false, hlc]

theorem get_energy_data_clamp_inv (α : Type) (today fd : Int)
    (lc dl : Int → Int → Except String (List α)) :
    (∀ c ∈ (get_energy_data α today (some fd) lc dl).2.1, fd ≤ c.start)
    ∧ (∀ c ∈ (get_energy_data α today (some fd) lc dl).2.1, c.start = fd →
        (get_energy_data α today (some fd) lc dl).2.2 = true
        ∧ (get_energy_data α today (some fd) lc dl).2.1.getLast? = some c) := by
  by_cases h1 : today - 7 ≤ fd
  · have hfinal : (get_energy_data α today (some fd) lc dl).2
        = ([⟨fd, today, true⟩], true) := by
      cases hlc : lc fd today with
      | ok d =>
        rw [get_energy_data_clamp1_ok α today fd lc dl d h1 hlc,
          runTiers_limit α today (some fd) dl _ rfl]
      | error e =>
        rw [get_energy_data_clamp1_err α today fd lc dl e h1 hlc,
          runTiers_limit α today (some fd) dl _ rfl]
    rw [hfinal]
    refine ⟨fun c hc => ?_, fun c hc hs => ?_⟩ <;>
      simp only [List.mem_singleton] at hc <;> subst hc
    · exact le_refl fd
    · exact ⟨rfl, rfl⟩
  · cases hlc : lc (today - 7) today with
    | ok d =>
      rw [get_energy_data_noclamp1_ok α today fd lc dl d h1 hlc]
      by_cases h2 : today - (7 + 179) ≤ fd
      · cases hd1 : dl fd (today - 7) with
        | ok d2 =>
          have hrun : runTiers α today (some fd) dl
              ⟨[d], 7, false, [⟨today - 7, today, true⟩]⟩
              = ⟨[d2, d], 7 + 179, true,
                  [⟨today - 7, today, true⟩, ⟨fd, today - 7, false⟩]⟩ := by
            unfold runTiers
            rw [dailyIter_go α today (some fd) dl
              (⟨[d], 7, false, [⟨today - 7, today, true⟩]⟩, false) rfl rfl]
            dsimp only
            rw [dailyTierStep_clamp_ok α today fd dl
              ⟨[d], 7, false, [⟨today - 7, today, true⟩]⟩ d2 h2 hd1]
            dsimp only
            simp only [List.cons_append, List.nil_append]
            rw [dailyIter_stop1 α today (some fd) dl
              (⟨[d2, d], 7 + 179, true,
                [⟨today - 7, today, true⟩, ⟨fd, today - 7, false⟩]⟩, false)
              rfl]
          rw [hrun]
          dsimp only
          refine ⟨fun c hc => ?_, fun c hc hs => ?_⟩ <;>
            simp only [List.mem_cons, List.not_mem_nil, or_false] at hc
          · rcases hc with rfl | rfl <;> dsimp only <;> omega
          · rcases hc with rfl | rfl
            · dsimp only at hs; exact absurd hs (by omega)
            · exact ⟨rfl, rfl⟩
        | error e2 =>
          have hrun : runTiers α today (some fd) dl
              ⟨[d], 7, false, [⟨today - 7, today, true⟩]⟩
              = ⟨[d], 7, true,
                  [⟨today - 7, today, true⟩, ⟨fd, today - 7, false⟩]⟩ := by
            unfold runTiers
            rw [dailyIter_go α today (some fd) dl
              (⟨[d], 7, false, [⟨today - 7, today, true⟩]⟩, false) rfl rfl]
            dsimp only
            rw [dailyTierStep_clamp_err α today fd dl
              ⟨[d], 7, false, [⟨today - 7, today, true⟩]⟩ e2 h2 hd1]
            dsimp only
            simp only [List.cons_append, List.nil_append]
            rw [dailyIter_stop1 α today (some fd) dl
              (⟨[d], 7, true,
                [⟨today - 7, today, true⟩, ⟨fd, today - 7, false⟩]⟩, true)
              rfl]
          rw [hrun]
          dsimp only
          refine ⟨fun c hc => ?_, fun c hc hs => ?_⟩ <;>
            simp only [List.mem_cons, List.not_mem_nil, or_false] at hc
          · rcases hc with rfl | rfl <;> dsimp only <;> omega
          · rcases hc with rfl | rfl
            · dsimp only at hs; exact absurd hs (by omega)
            · exact ⟨rfl, rfl⟩
      · cases hd1 : dl (today - (7 + 179)) (today - 7) with
        | error e2 =>
          have hrun : runTiers α today (some fd) dl
              ⟨[d], 7, false, [⟨today - 7, today, true⟩]⟩
              = ⟨[d], 7, false,
                  [⟨today - 7, today, true⟩,
                   ⟨today - (7 + 179), today - 7, false⟩]⟩ := by
            unfold runTiers
            rw [dailyIter_go α today (some fd) dl
              (⟨[d], 7, false, [⟨today - 7, today, true⟩]⟩, false) rfl rfl]
            dsimp only
            rw [dailyTierStep_noclamp_err α today fd dl
              ⟨[d], 7, false, [⟨today - 7, today, true⟩]⟩ e2 h2 hd1]
            dsimp only
            simp only [List.cons_append, List.nil_append]
            rw [dailyIter_stop2 α today (some fd) dl
              (⟨[d], 7, false,
                [⟨today - 7, today, true⟩,
                 ⟨today - (7 + 179), today - 7, false⟩]⟩, true) rfl]
          rw [hrun]
          dsimp only
          refine ⟨fun c hc => ?_, fun c hc hs => ?_⟩ <;>
            simp only [List.mem_cons, List.not_mem_nil, or_false] at hc
          · rcases hc with rfl | rfl <;> dsimp only <;> omega
          · rcases hc with rfl | rfl <;> dsimp only at hs <;>
              exact absurd hs (by omega)
        | ok d2 =>
          by_cases h3 : today - (7 + 179 + 179) ≤ fd
          · cases hd2 : dl fd (today - (7 + 179)) with
            | ok d3 =>
              have hrun : runTiers α today (some fd) dl
                  ⟨[d], 7, false, [⟨today - 7, today, true⟩]⟩
                  = ⟨[d3, d2, d], 7 + 179 + 179, true,
                      [⟨today - 7, today, true⟩,
                       ⟨today - (7 + 179), today - 7, false⟩,
                       ⟨fd, today - (7 + 179), false⟩]⟩ := by
                unfold runTiers
                rw [dailyIter_go α today (some fd) dl
                  (⟨[d], 7, false, [⟨today - 7, today, true⟩]⟩, false)
                  rfl rfl]
                dsimp only
                rw [dailyTierStep_noclamp_ok α today fd dl
                  ⟨[d], 7, false, [⟨today - 7, today, true⟩]⟩ d2 h2 hd1]
                dsimp only
                simp only [List.cons_append, List.nil_append]
                rw [dailyIter_go α today (some fd) dl
                  (⟨[d2, d], 7 + 179, false,
                    [⟨today - 7, today, true⟩,
                     ⟨today - (7 + 179), today - 7, false⟩]⟩, false) rfl rfl]
                dsimp only
                rw [dailyTierStep_clamp_ok α today fd dl
                  ⟨[d2, d], 7 + 179, false,
                    [⟨today - 7, today, true⟩,
                     ⟨today - (7 + 179), today - 7, false⟩]⟩ d3 h3 hd2]
                dsimp only
                simp only [List.cons_append, List.nil_append]
              rw [hrun]
              dsimp only
              refine ⟨fun c hc => ?_, fun c hc hs => ?_⟩ <;>
                simp only [List.mem_cons, List.not_mem_nil, or_false] at hc
              · rcases hc with rfl | rfl | rfl <;> dsimp only <;> omega
              · rcases hc with rfl | rfl | rfl
                · dsimp only at hs; exact absurd hs (by omega)
                · dsimp only at hs; exact absurd hs (by omega)
                · exact ⟨rfl, rfl⟩
            | error e3 =>
              have hrun : runTiers α today (some fd) dl
                  ⟨[d], 7, false, [⟨today - 7, today, true⟩]⟩
                  = ⟨[d2, d], 7 + 179, true,
                      [⟨today - 7, today, true⟩,
                       ⟨today - (7 + 179), today - 7, false⟩,
                       ⟨fd, today - (7 + 179), false⟩]⟩ := by
                unfold runTiers
                rw [dailyIter_go α today (some fd) dl
                  (⟨[d], 7, false, [⟨today - 7, today, true⟩]⟩, false)
                  rfl rfl]
                dsimp only
                rw [dailyTierStep_noclamp_ok α today fd dl
                  ⟨[d], 7, false, [⟨today - 7, today, true⟩]⟩ d2 h2 hd1]
                dsimp only
                simp only [List.cons_append, List.nil_append]
                rw [dailyIter_go α today (some fd) dl
                  (⟨[d2, d], 7 + 179, false,
                    [⟨today - 7, today, true⟩,
                     ⟨today - (7 + 179), today - 7, false⟩]⟩, false) rfl rfl]
                dsimp only
                rw [dailyTierStep_clamp_err α today fd dl
                  ⟨[d2, d], 7 + 179, false,
                    [⟨today - 7, today, true⟩,
                     ⟨today - (7 + 179), today - 7, false⟩]⟩ e3 h3 hd2]
                dsimp only
                simp only [List.cons_append, List.nil_append]
              rw [hrun]
              dsimp only
              refine ⟨fun c hc => ?_, fun c hc hs => ?_⟩ <;>
                simp only [List.mem_cons, List.not_mem_nil, or_false] at hc
              · rcases hc with rfl | rfl | rfl <;> dsimp only <;> omega
              · rcases hc with rfl | rfl | rfl
                · dsimp only at hs; exact absurd hs (by omega)
                · dsimp only at hs; exact absurd hs (by omega)
                · exact ⟨rfl, rfl⟩
          · cases hd2 : dl (today - (7 + 179 + 179)) (today - (7 + 179)) with
            | ok d3 =>
              have hrun : runTiers α today (some fd) dl
                  ⟨[d], 7, false, [⟨today - 7, today, true⟩]⟩
                  = ⟨[d3, d2, d], 7 + 179 + 179, false,
                      [⟨today - 7, today, true⟩,
                       ⟨today - (7 + 179), today - 7, false⟩,
                       ⟨today - (7 + 179 + 179), today - (7 + 179), false⟩]⟩ := by
                unfold runTiers
                rw [dailyIter_go α today (some fd) dl
                  (⟨[d], 7, false, [⟨today - 7, today, true⟩]⟩, false)
                  rfl rfl]
                dsimp only
                rw [dailyTierStep_noclamp_ok α today fd dl
                  ⟨[d], 7, false, [⟨today - 7, today, true⟩]⟩ d2 h2 hd1]
                dsimp only
                simp only [List.cons_append, List.nil_append]
                rw [dailyIter_go α today (some fd) dl
                  (⟨[d2, d], 7 + 179, false,
                    [⟨today - 7, today, true⟩,
                     ⟨today - (7 + 179), today - 7, false⟩]⟩, false) rfl rfl]
                dsimp only
                rw [dailyTierStep_noclamp_ok α today fd dl
                  ⟨[d2, d], 7 + 179, false,
                    [⟨today - 7, today, true⟩,
                     ⟨today - (7 + 179), today - 7, false⟩]⟩ d3 h3 hd2]
                dsimp only
                simp only [List.cons_append, List.nil_append]
              rw [hrun]
              dsimp only
              refine ⟨fun c hc => ?_, fun c hc hs => ?_⟩ <;>
                simp only [List.mem_cons, List.not_mem_nil, or_false] at hc
              · rcases hc with rfl | rfl | rfl <;> dsimp only <;> omega
              · rcases hc with rfl | rfl | rfl <;> dsimp only at hs <;>
                  exact absurd hs (by omega)
            | error e3 =>
              have hrun : runTiers α today (some fd) dl
                  ⟨[d], 7, false, [⟨today - 7, today, true⟩]⟩
                  = ⟨[d2, d], 7 + 179, false,
                      [⟨today - 7, today, true⟩,
                       ⟨today - (7 + 179), today - 7, false⟩,
                       ⟨today - (7 + 179 + 179), today - (7 + 179), false⟩]⟩ := by
                unfold runTiers
                rw [dailyIter_go α today (some fd) dl
                  (⟨[d], 7, false, [⟨today - 7, today, true⟩]⟩, false)
                  rfl rfl]
                dsimp only
                rw [dailyTierStep_noclamp_ok α today fd dl
                  ⟨[d], 7, false, [⟨today - 7, today, true⟩]⟩ d2 h2 hd1]
                dsimp only
                simp only [List.cons_append, List.nil_append]
                rw [dailyIter_go α today (some fd) dl
                  (⟨[d2, d], 7 + 179, false,
                    [⟨today - 7, today, true⟩,
                     ⟨today - (7 + 179), today - 7, false⟩]⟩, false) rfl rfl]
                dsimp only
                rw [dailyTierStep_noclamp_err α today fd dl
                  ⟨[d2, d], 7 + 179, false,
                    [⟨today - 7, today, true⟩,
                     ⟨today - (7 + 179), today - 7, false⟩]⟩ e3 h3 hd2]
                dsimp only
                simp only [List.cons_append, List.nil_append]
              rw [hrun]
              dsimp only
              refine ⟨fun c hc => ?_, fun c hc hs => ?_⟩ <;>
                simp only [List.mem_cons, List.not_mem_nil, or_false] at hc
              · rcases hc with rfl | rfl | rfl <;> dsimp only <;> omega
              · rcases hc with rfl | rfl | rfl <;> dsimp only at hs <;>
                  exact absurd hs (by omega)
    | error e =>
      rw [get_energy_data_noclamp1_err α today fd lc dl e h1 hlc]
      by_cases h2 : today - (0 + 179) ≤ fd
      · cases hd1 : dl fd (today - 0) with
        | ok d2 =>
          have hrun : runTiers α today (some fd) dl
              ⟨[], 0, false, [⟨today - 7, today, true⟩]⟩
              = ⟨[d2], 0 + 179, true,
                  [⟨today - 7, today, true⟩, ⟨fd, today - 0, false⟩]⟩ := by
            unfold runTiers
            rw [dailyIter_go α today (some fd) dl
              (⟨[], 0, false, [⟨today - 7, today, true⟩]⟩, false) rfl rfl]
            dsimp only
            rw [dailyTierStep_clamp_ok α today fd dl
              ⟨[], 0, false, [⟨today - 7, today, true⟩]⟩ d2 h2 hd1]
            dsimp only
            simp only [List.cons_append, List.nil_append]
            rw [dailyIter_stop1 α today (some fd) dl
              (⟨[d2], 0 + 179, true,
                [⟨today - 7, today, true⟩, ⟨fd, today - 0, false⟩]⟩, false)
              rfl]
          rw [hrun]
          dsimp only
          refine ⟨fun c hc => ?_, fun c hc hs => ?_⟩ <;>
            simp only [List.mem_cons, List.not_mem_nil, or_false] at hc
          · rcases hc with rfl | rfl <;> dsimp only <;> omega
          · rcases hc with rfl | rfl
            · dsimp only at hs; exact absurd hs (by omega)
            · exact ⟨rfl, rfl⟩
        | error e2 =>
          have hrun : runTiers α today (some fd) dl
              ⟨[], 0, false, [⟨today - 7, today, true⟩]⟩
              = ⟨[], 0, true,
                  [⟨today - 7, today, true⟩, ⟨fd, today - 0, false⟩]⟩ := by
            unfold runTiers
            rw [dailyIter_go α today (some fd) dl
              (⟨[], 0, false, [⟨today - 7, today, true⟩]⟩, false) rfl rfl]
            dsimp only
            rw [dailyTierStep_clamp_err α today fd dl
              ⟨[], 0, false, [⟨today - 7, today, true⟩]⟩ e2 h2 hd1]
            dsimp only
            simp only [List.cons_append, List.nil_append]
            rw [dailyIter_stop1 α today (some fd) dl
              (⟨[], 0, true,
                [⟨today - 7, today, true⟩, ⟨fd, today - 0, false⟩]⟩, true)
              rfl]
          rw [hrun]
          dsimp only
          refine ⟨fun c hc => ?_, fun c hc hs => ?_⟩ <;>
            simp only [List.mem_cons, List.not_mem_nil, or_false] at hc
          · rcases hc with rfl | rfl <;> dsimp only <;> omega
          · rcases hc with rfl | rfl
            · dsimp only at hs; exact absurd hs (by omega)
            · exact ⟨rfl, rfl⟩
      · cases hd1 : dl (today - (0 + 179)) (today - 0) with
        | error e2 =>
          have hrun : runTiers α today (some fd) dl
              ⟨[], 0, false, [⟨today - 7, today, true⟩]⟩
              = ⟨[], 0, false,
                  [⟨today - 7, today, true⟩,
                   ⟨today - (0 + 179), today - 0, false⟩]⟩ := by
            unfold runTiers
            rw [dailyIter_go α today (some fd) dl
              (⟨[], 0, false, [⟨today - 7, today, true⟩]⟩, false) rfl rfl]
            dsimp only
            rw [dailyTierStep_noclamp_err α today fd dl
              ⟨[], 0, false, [⟨today - 7, today, true⟩]⟩ e2 h2 hd1]
            dsimp only
            simp only [List.cons_append, List.nil_append]
            rw [dailyIter_stop2 α today (some fd) dl
              (⟨[], 0, false,
                [⟨today - 7, today, true⟩,
                 ⟨today - (0 + 179), today - 0, false⟩]⟩, true) rfl]
          rw [hrun]
          dsimp only
          refine ⟨fun c hc => ?_, fun c hc hs => ?_⟩ <;>
            simp only [List.mem_cons, List.not_mem_nil, or_false] at hc
          · rcases hc with rfl | rfl <;> dsimp only <;> omega
          · rcases hc with rfl | rfl <;> dsimp only at hs <;>
              exact absurd hs (by omega)
        | ok d2 =>
          by_cases h3 : today - (0 + 179 + 179) ≤ fd
          · cases hd2 : dl fd (today - (0 + 179)) with
            | ok d3 =>
              have hrun : runTiers α today (some fd) dl
                  ⟨[], 0, false, [⟨today - 7, today, true⟩]⟩
                  = ⟨[d3, d2], 0 + 179 + 179, true,
                      [⟨today - 7, today, true⟩,
                       ⟨today - (0 + 179), today - 0, false⟩,
                       ⟨fd, today - (0 + 179), false⟩]⟩ := by
                unfold runTiers
                rw [dailyIter_go α today (some fd) dl
                  (⟨[], 0, false, [⟨today - 7, today, true⟩]⟩, false)
                  rfl rfl]
                dsimp only
                rw [dailyTierStep_noclamp_ok α today fd dl
                  ⟨[], 0, false, [⟨today - 7, today, true⟩]⟩ d2 h2 hd1]
                dsimp only
                simp only [List.cons_append, List.nil_append]
                rw [dailyIter_go α today (some fd) dl
                  (⟨[d2], 0 + 179, false,
                    [⟨today - 7, today, true⟩,
                     ⟨today - (0 + 179), today - 0, false⟩]⟩, false) rfl rfl]
                dsimp only
                rw [dailyTierStep_clamp_ok α today fd dl
                  ⟨[d2], 0 + 179, false,
                    [⟨today - 7, today, true⟩,
                     ⟨today - (0 + 179), today - 0, false⟩]⟩ d3 h3 hd2]
                dsimp only
                simp only [List.cons_append, List.nil_append]
              rw [hrun]
              dsimp only
              refine ⟨fun c hc => ?_, fun c hc hs => ?_⟩ <;>
                simp only [List.mem_cons, List.not_mem_nil, or_false] at hc
              · rcases hc with rfl | rfl | rfl <;> dsimp only <;> omega
              · rcases hc with rfl | rfl | rfl
                · dsimp only at hs; exact absurd hs (by omega)
                · dsimp only at hs; exact absurd hs (by omega)
                · exact ⟨rfl, rfl⟩
            | error e3 =>
              have hrun : runTiers α today (some fd) dl
                  ⟨[], 0, false, [⟨today - 7, today, true⟩]⟩
                  = ⟨[d2], 0 + 179, true,
                      [⟨today - 7, today, true⟩,
                       ⟨today - (0 + 179), today - 0, false⟩,
                       ⟨fd, today - (0 + 179), false⟩]⟩ := by
                unfold runTiers
                rw [dailyIter_go α today (some fd) dl
                  (⟨[], 0, false, [⟨today - 7, today, true⟩]⟩, false)
                  rfl rfl]
                dsimp only
                rw [dailyTierStep_noclamp_ok α today fd dl
                  ⟨[], 0, false, [⟨today - 7, today, true⟩]⟩ d2 h2 hd1]
                dsimp only
                simp only [List.cons_append, List.nil_append]
                rw [dailyIter_go α today (some fd) dl
                  (⟨[d2], 0 + 179, false,
                    [⟨today - 7, today, true⟩,
                     ⟨today - (0 + 179), today - 0, false⟩]⟩, false) rfl rfl]
                dsimp only
                rw [dailyTierStep_clamp_err α today fd dl
                  ⟨[d2], 0 + 179, false,
                    [⟨today - 7, today, true⟩,
                     ⟨today - (0 + 179), today - 0, false⟩]⟩ e3 h3 hd2]
                dsimp only
                simp only [List.cons_append, List.nil_append]
              rw [hrun]
              dsimp only
              refine ⟨fun c hc => ?_, fun c hc hs => ?_⟩ <;>
                simp only [List.mem_cons, List.not_mem_nil, or_false] at hc
              · rcases hc with rfl | rfl | rfl <;> dsimp only <;> omega
              · rcases hc with rfl | rfl | rfl
                · dsimp only at hs; exact absurd hs (by omega)
                · dsimp only at hs; exact absurd hs (by omega)
                · exact ⟨rfl, rfl⟩
          · cases hd2 : dl (today - (0 + 179 + 179)) (today - (0 + 179)) with
            | ok d3 =>
              have hrun : runTiers α today (some fd) dl
                  ⟨[], 0, false, [⟨today - 7, today, true⟩]⟩
                  = ⟨[d3, d2], 0 + 179 + 179, false,
                      [⟨today - 7, today, true⟩,
                       ⟨today - (0 + 179), today - 0, false⟩,
                       ⟨today - (0 + 179 + 179), today - (0 + 179), false⟩]⟩ := by
                unfold runTiers
                rw [dailyIter_go α today (some fd) dl
                  (⟨[], 0, false, [⟨today - 7, today, true⟩]⟩, false)
                  rfl rfl]
                dsimp only
                rw [dailyTierStep_noclamp_ok α today fd dl
                  ⟨[], 0, false, [⟨today - 7, today, true⟩]⟩ d2 h2 hd1]
                dsimp only
                simp only [List.cons_append, List.nil_append]
                rw [dailyIter_go α today (some fd) dl
                  (⟨[d2], 0 + 179, false,
                    [⟨today - 7, today, true⟩,
                     ⟨today - (0 + 179), today - 0, false⟩]⟩, false) rfl rfl]
                dsimp only
                rw [dailyTierStep_noclamp_ok α today fd dl
                  ⟨[d2], 0 + 179, false,
                    [⟨today - 7, today, true⟩,
                     ⟨today - (0 + 179), today - 0, false⟩]⟩ d3 h3 hd2]
                dsimp only
                simp only [List.cons_append, List.nil_append]
              rw [hrun]
              dsimp only
              refine ⟨fun c hc => ?_, fun c hc hs => ?_⟩ <;>
                simp only [List.mem_cons, List.not_mem_nil, or_false] at hc
              · rcases hc with rfl | rfl | rfl <;> dsimp only <;> omega
              · rcases hc with rfl | rfl | rfl <;> dsimp only at hs <;>
                  exact absurd hs (by omega)
            | error e3 =>
              have hrun : runTiers α today (some fd) dl
                  ⟨[], 0, false, [⟨today - 7, today, true⟩]⟩
                  = ⟨[d2], 0 + 179, false,
                      [⟨today - 7, today, true⟩,
                       ⟨today - (0 + 179), today - 0, false⟩,
                       ⟨today - (0 + 179 + 179), today - (0 + 179), false⟩]⟩ := by
                unfold runTiers
                rw [dailyIter_go α today (some fd) dl
                  (⟨[], 0, false, [⟨today - 7, today, true⟩]⟩, false)
                  rfl rfl]
                dsimp only
                rw [dailyTierStep_noclamp_ok α today fd dl
                  ⟨[], 0, false, [⟨today - 7, today, true⟩]⟩ d2 h2 hd1]
                dsimp only
                simp only [List.cons_append, List.nil_append]
                rw [dailyIter_go α today (some fd) dl
                  (⟨[d2], 0 + 179, false,
                    [⟨today - 7, today, true⟩,
                     ⟨today - (0 + 179), today - 0, false⟩]⟩, false) rfl rfl]
                dsimp only
                rw [dailyTierStep_noclamp_err α today fd dl
                  ⟨[d2], 0 + 179, false,
                    [⟨today - 7, today, true⟩,
                     ⟨today - (0 + 179), today - 0, false⟩]⟩ e3 h3 hd2]
                dsimp only
                simp only [List.cons_append, List.nil_append]
              rw [hrun]
              dsimp only
              refine ⟨fun c hc => ?_, fun c hc hs => ?_⟩ <;>
                simp only [List.mem_cons, List.not_mem_nil, or_false] at hc
              · rcases hc with rfl | rfl | rfl <;> dsimp only <;> omega
              · rcases hc with rfl | rfl | rfl <;> dsimp only at hs <;>
                  exact absurd hs (by omega)

-- --------------------------------------------------------------------------
-- Claim theorems
-- --------------------------------------------------------------------------

/-- C7: `format_as_statistics` preserves the length, its `state` sequence
equals the input `value` sequence, its `sum` sequence is the running-sum
sequence `sum_i = value_i + sum_{i-1}` with `sum_0 = value_0` (base 0,
transcribed as `specRunningSums 0`), and the `sum` sequence is monotonically
non-decreasing whenever all values are non-negative. -/
theorem format_as_statistics_spec :
    (∀ data : List DataPoint,
      (format_as_statistics data).length = data.length)
    ∧ (∀ data : List DataPoint,
      (format_as_statistics data).map StatisticDataPoint.state
        = data.map DataPoint.value)
    ∧ (∀ data : List DataPoint,
      (format_as_statistics data).map StatisticDataPoint.sum
        = specRunningSums 0 (data.map DataPoint.value))
    ∧ (∀ data : List DataPoint, (∀ p ∈ data, 0 ≤ p.value) →
      ((format_as_statistics data).map StatisticDataPoint.sum).Sorted
        (· ≤ ·)) := by
  have hstate := format_as_statistics_go_map_state
  have hsum := format_as_statistics_go_map_sum
  refine ⟨fun data => ?_, fun data => hstate 0 data, fun data => hsum 0 data,
    fun data h => ?_⟩
  · have := congrArg List.length (hstate 0 data)
    simpa [format_as_statistics] using this
  · rw [format_as_statistics, hsum 0 data]
    exact (specRunningSums_sorted 0 (data.map DataPoint.value)
      (by simpa using fun p hp => h p hp)).1

/-- C7 witness: the monotonicity clause applied to a concrete non-negative
series. -/
theorem format_as_statistics_spec_witness :
    (∀ p ∈ ([⟨0, 1⟩, ⟨60, 2⟩, ⟨120, 3⟩] : List DataPoint), 0 ≤ p.value)
    ∧ ((format_as_statistics
        [⟨0, 1⟩, ⟨60, 2⟩, ⟨120, 3⟩]).map StatisticDataPoint.sum).Sorted
        (· ≤ ·) :=
  ⟨by decide, format_as_statistics_spec.2.2.2 _ (by decide)⟩

/-- C10: a rule whose `price` is 0 (or absent) and which has no `entity_id`
is skipped by `_find_matching_cost_config` exactly like an absent rule (the
matcher falls through to the later rules), and `compute_costs` with only such
a rule emits no cost points at all. -/
theorem zero_price_rule_never_matches :
    (∀ (t : Int) (c : CostConfig) (cs : List CostConfig),
      (c.price = some 0 ∨ c.price = none) → c.entity_id = none →
      find_matching_cost_config t (c :: cs) = find_matching_cost_config t cs)
    ∧ (∀ (energy : List DataPoint) (c : CostConfig)
        (eh : Option EntityHistoryData),
      c.price = some 0 → c.entity_id = none →
      compute_costs energy [c] eh = []) := by
  have hskip : ∀ (t : Int) (c : CostConfig),
      (c.price = some 0 ∨ c.price = none) → c.entity_id = none →
      configSkips t c = true := by
    intro t c hp he
    rcases hp with hp | hp <;>
      simp [configSkips, priceTruthy, strTruthy, hp, he]
  constructor
  · intro t c cs hp he
    simp [find_matching_cost_config, hskip t c hp he]
  · intro energy c eh hp he
    induction energy with
    | nil => rfl
    | cons p rest ih =>
      simp only [compute_costs, find_matching_cost_config,
        hskip p.date c (Or.inl hp) he]
      simpa [find_matching_cost_config] using ih

/-- C10 witness: a zero-price filterless rule matched against a concrete
point and a concrete energy series. -/
theorem zero_price_rule_never_matches_witness :
    ((flatRule 0).price = some 0 ∧ (flatRule 0).entity_id = none)
    ∧ find_matching_cost_config 600 [flatRule 0] = find_matching_cost_config 600 []
    ∧ compute_costs [⟨600, 1000⟩] [flatRule 0] none = [] :=
  ⟨⟨rfl, rfl⟩,
    zero_price_rule_never_matches.1 600 (flatRule 0) [] (Or.inl rfl) rfl,
    zero_price_rule_never_matches.2 [⟨600, 1000⟩] (flatRule 0) none rfl rfl⟩

/-- C6 counterexample: at the exact boundary (last statistic exactly 2 days
old, hour 7) the code skips the run, while the claim ("no-op exactly when the
last timestamp is more recent than now minus 2 days, or the hour is before 6")
says it proceeds. -/
theorem incremental_sync_boundary_counterexample :
    incremental_sync_decision (19737 * 1440 + 420 - 2880) (19737 * 1440 + 420)
      = none
    ∧ ¬((19737 * 1440 + 420 : Int) - 2880 < 19737 * 1440 + 420 - 2880
        ∨ hourOf (19737 * 1440 + 420) < 6) := by
  constructor
  · decide
  · decide

/-- C6 (amended): the incremental sync is a no-op exactly when the last
stored statistic's timestamp is *at or* more recent than now minus 2 days
(boundary inclusive), or the current hour is before 6; otherwise it fetches
since the last point's date plus one day.  With the last statistic 3 days old
and hour 7 it proceeds; at hour 5 it is skipped regardless of age. -/
theorem incremental_sync_decision_spec :
    (∀ lastDt now : Int,
      incremental_sync_decision lastDt now = none
        ↔ (now - 2880 ≤ lastDt ∨ hourOf now < 6))
    ∧ (∀ lastDt now : Int, lastDt < now - 2880 → 6 ≤ hourOf now →
      incremental_sync_decision lastDt now = some (dayOf (lastDt + 1440)))
    ∧ (∀ lastDt now : Int, hourOf now < 6 →
      incremental_sync_decision lastDt now = none)
    ∧ incremental_sync_decision (19737 * 1440 + 420 - 3 * 1440)
        (19737 * 1440 + 420) = some 19735
    ∧ incremental_sync_decision (19737 * 1440 + 300 - 3 * 1440)
        (19737 * 1440 + 300) = none := by
  refine ⟨fun lastDt now => ?_, fun lastDt now h1 h2 => ?_,
    fun lastDt now h => ?_, by decide, by decide⟩
  · simp only [incremental_sync_decision]
    split
    · next hc => simp only [reduceCtorEq, false_iff]; omega
    · next hc =>
      simp only [true_iff]
      rcases not_and_or.mp hc with hc | hc <;> omega
  · simp [incremental_sync_decision, h1, h2]
  · simp only [incremental_sync_decision]
    split
    · next hc => omega
    · rfl

/-- C6 witness: the proceed clause applied at a concrete last-statistic 3
days old with current hour 7. -/
theorem incremental_sync_decision_spec_witness :
    ((19737 * 1440 + 420 : Int) - 3 * 1440 < 19737 * 1440 + 420 - 2880
      ∧ 6 ≤ hourOf (19737 * 1440 + 420))
    ∧ incremental_sync_decision (19737 * 1440 + 420 - 3 * 1440)
        (19737 * 1440 + 420)
      = some (dayOf (19737 * 1440 + 420 - 3 * 1440 + 1440)) :=
  ⟨⟨by decide, by decide⟩,
    incremental_sync_decision_spec.2.1 _ _ (by decide) (by decide)⟩

/-- C5 counterexample: a daily reading with a missing date field makes
`format_daily_data` fail with a `KeyError`-style error; the reading is not
silently dropped. -/
theorem format_daily_missing_date_counterexample :
    format_daily_data [⟨none, some 5, none⟩] = .error "KeyError: date"
    ∧ format_daily_data [⟨none, some 5, none⟩] ≠ .ok [] := by
  refine ⟨rfl, ?_⟩
  intro h
  simp [format_daily_data] at h

/-- C5 (amended): a raw reading with a missing required field (date or value
for daily and load-curve readings, `debut` for CSV records) makes the
normalization function fail with a `KeyError`-style error that propagates to
the caller — such readings are not silently dropped; a CSV record missing
only its `kW` value is kept with value 0 (the `.get` default), not dropped;
and inputs with all required fields present never produce an error. -/
theorem format_missing_field_behavior :
    (∀ (r : RawReading) (rest : List RawReading), r.date = none →
      format_daily_data (r :: rest) = .error "KeyError: date")
    ∧ (∀ (r : RawReading) (rest : List RawReading) (d : Int),
      r.date = some d → r.value = none →
      format_daily_data (r :: rest) = .error "KeyError: value")
    ∧ (∀ (r : RawReading) (rest : List RawReading), r.date = none →
      format_load_curve (r :: rest) = .error "KeyError: date")
    ∧ (∀ (r : RawReading) (rest : List RawReading) (d : Int),
      r.date = some d → r.value = none →
      format_load_curve (r :: rest) = .error "KeyError: value")
    ∧ (∀ (r : CsvRecord) (rest : List CsvRecord), r.debut = none →
      format_history_file (r :: rest) = .error "KeyError: debut")
    ∧ (∀ (d : Int) (rest : List CsvRecord),
      format_history_file ((⟨some d, none⟩ : CsvRecord) :: rest)
        = (format_history_file rest).map
            (fun l => (⟨d, 0⟩ : DataPoint) :: l))
    ∧ (∀ rs : List RawReading,
      (∀ r ∈ rs, r.date.isSome ∧ r.value.isSome) →
      ∃ l, format_daily_data rs = .ok l) := by
  refine ⟨fun r rest h => by simp [format_daily_data, h],
    fun r rest d hd hv => by simp [format_daily_data, hd, hv],
    fun r rest h => by simp [format_load_curve, h],
    fun r rest d hd hv => by simp [format_load_curve, hd, hv],
    fun r rest h => by simp [format_history_file, h],
    fun d rest => by simp [format_history_file],
    fun rs h => ?_⟩
  induction rs with
  | nil => exact ⟨[], rfl⟩
  | cons r rest ih =>
    obtain ⟨hd, hv⟩ := h r (by simp)
    obtain ⟨d, hd⟩ := Option.isSome_iff_exists.mp hd
    obtain ⟨v, hv⟩ := Option.isSome_iff_exists.mp hv
    obtain ⟨l, hl⟩ := ih (fun r hr => h r (by simp [hr]))
    exact ⟨⟨d, v⟩ :: l, by simp [format_daily_data, hd, hv, hl, Except.map]⟩

/-- C5 witness: the missing-date clause and the never-errors clause applied
at concrete inputs. -/
theorem format_missing_field_behavior_witness :
    ((⟨none, some 7, none⟩ : RawReading).date = none
      ∧ format_daily_data [⟨none, some 7, none⟩] = .error "KeyError: date")
    ∧ ((∀ r ∈ ([⟨some 0, some 7, none⟩] : List RawReading),
          r.date.isSome ∧ r.value.isSome)
      ∧ ∃ l, format_daily_data [⟨some 0, some 7, none⟩] = .ok l) :=
  ⟨⟨rfl, format_missing_field_behavior.1 _ [] rfl⟩,
    ⟨by decide, format_missing_field_behavior.2.2.2.2.2.2 _ (by decide)⟩⟩

/-- C1: every emitted cost point carries the value
`pyRound(price * value_Wh) / 1000` for the point's matched rule and resolved
price — the rounding happens on the price×Wh product, before the division by
1000.  The example point at 2024-01-15T10:00 (minute 19737·1440+600) with
2000 Wh under the flat rule `{price: 0.20}` yields cost 0.4 = 2/5, and
round-before-divide genuinely differs from round-after-divide (price 1/2,
5 Wh: 1/500 versus 0). -/
theorem compute_costs_rounds_before_division :
    (∀ (energy : List DataPoint) (cfgs : List CostConfig)
        (eh : Option EntityHistoryData),
      compute_costs energy cfgs eh
        = energy.filterMap (fun p =>
            (find_matching_cost_config p.date cfgs).bind (fun m =>
              (resolve_price p.date m eh).map (fun price =>
                (⟨p.date, (pyRound (price * p.value) : ℚ) / 1000⟩
                  : DataPoint)))))
    ∧ compute_costs [⟨19737 * 1440 + 600, 2000⟩] [flatRule (1/5)] none
        = [⟨19737 * 1440 + 600, 2/5⟩]
    ∧ compute_costs [⟨19737 * 1440 + 600, 5⟩] [flatRule (1/2)] none
        = [⟨19737 * 1440 + 600, 1/500⟩]
    ∧ (pyRound ((1/2 : ℚ) * 5) : ℚ) / 1000 ≠ (pyRound ((1/2 : ℚ) * 5 / 1000) : ℚ) := by
  refine ⟨fun energy cfgs eh => ?_,
    by norm_num [compute_costs, find_matching_cost_config, configSkips,
      flatRule, priceTruthy, strTruthy, resolve_price, ehTruthy, pyRound],
    by norm_num [compute_costs, find_matching_cost_config, configSkips,
      flatRule, priceTruthy, strTruthy, resolve_price, ehTruthy, pyRound],
    by norm_num [pyRound]⟩
  induction energy with
  | nil => rfl
  | cons p rest ih =>
    cases hm : find_matching_cost_config p.date cfgs with
    | none => simp [compute_costs, hm, ih]
    | some m =>
      cases hp : resolve_price p.date m eh with
      | none => simp [compute_costs, hm, hp, ih]
      | some price => simp [compute_costs, hm, hp, ih]

/-- C2: `_convert_price_unit` divides by 100 when the lowercased unit
contains a cents marker, else by 1000 for a currency-per-MWh marker, else by
100000 for a cents-per-MWh marker, else passes the price through; the cents
check comes first, and every cents-per-MWh pattern also matches the cents
markers, so a unit matching several patterns resolves to the cents
interpretation; an absent or empty or unrecognized unit is passed through;
and unit "c€/kWh" with value 15 resolves to 0.15 = 3/20. -/
theorem convert_price_unit_spec :
    (∀ (p : ℚ) (u : String), u.isEmpty = false →
      convert_price_unit p (some u)
        = (if hasCentsMarker (pyLower u) then p / 100
           else if hasEurPerMwhMarker (pyLower u) then p / 1000
           else if hasCentPerMwhMarker (pyLower u) then p / 100000
           else p))
    ∧ (∀ u : String, hasCentPerMwhMarker u = true → hasCentsMarker u = true)
    ∧ (∀ p : ℚ, convert_price_unit p none = p)
    ∧ (∀ p : ℚ, convert_price_unit p (some "") = p)
    ∧ (∀ (p : ℚ) (u : String), hasCentsMarker (pyLower u) = false →
        hasEurPerMwhMarker (pyLower u) = false →
        hasCentPerMwhMarker (pyLower u) = false →
        convert_price_unit p (some u) = p)
    ∧ convert_price_unit 15 (some "c€/kWh") = 3 / 20 := by
  refine ⟨fun p u hne => by simp [convert_price_unit, hne],
    fun u h => ?_, fun p => rfl, fun p => rfl,
    fun p u h1 h2 h3 => ?_, ?_⟩
  · simp only [hasCentPerMwhMarker, Bool.or_eq_true, strContains,
      decide_eq_true_eq] at h
    simp only [hasCentsMarker, Bool.or_eq_true, strContains,
      decide_eq_true_eq]
    rcases h with h | h
    · have hsub : "cent".data <:+: "cent/mwh".data := by decide
      exact Or.inl (Or.inr (hsub.trans h))
    · have hsub : "c€".data <:+: "c€/mwh".data := by decide
      exact Or.inl (Or.inl (hsub.trans h))
  · by_cases hE : u.isEmpty <;> simp [convert_price_unit, hE, h1, h2, h3]
  · have h1 : hasCentsMarker (pyLower "c€/kWh") = true := by decide
    have h2 : "c€/kWh".isEmpty = false := by decide
    rw [convert_price_unit]
    simp only [h1, h2, Bool.false_eq_true, if_false, if_true]
    norm_num

/-- C2 witness: the unit-table clause at "EUR/MWh", the multi-pattern clause
at "cent/mwh", and the unrecognized-unit clause at "abc". -/
theorem convert_price_unit_spec_witness :
    ("EUR/MWh".isEmpty = false
      ∧ convert_price_unit 3 (some "EUR/MWh")
          = (if hasCentsMarker (pyLower "EUR/MWh") then (3 : ℚ) / 100
             else if hasEurPerMwhMarker (pyLower "EUR/MWh") then 3 / 1000
             else if hasCentPerMwhMarker (pyLower "EUR/MWh") then 3 / 100000
             else 3))
    ∧ (hasCentPerMwhMarker "cent/mwh" = true
      ∧ hasCentsMarker "cent/mwh" = true)
    ∧ (hasCentsMarker (pyLower "abc") = false
      ∧ convert_price_unit 4 (some "abc") = 4) :=
  ⟨⟨by decide, convert_price_unit_spec.1 3 "EUR/MWh" (by decide)⟩,
    ⟨by decide, convert_price_unit_spec.2.1 "cent/mwh" (by decide)⟩,
    ⟨by decide,
      convert_price_unit_spec.2.2.2.2.1 4 "abc" (by decide) (by decide)
        (by decide)⟩⟩

/-- C4: for an entity-priced rule, the resolved price comes from the last
sample of the entity's (ascending) history with timestamp ≤ the point's
timestamp — expressed as `(filter (timestamp ≤ t)).getLast?` — put through
the unit conversion (the identity for an absent or unrecognized unit); when
the entity is unknown, or no sample is at or before the point, the lookup
yields `none`, and a point whose matched rule resolves to no price is
skipped by `compute_costs`: no cost point is emitted for it (in particular no
zero-priced one) and no error is raised. -/
theorem find_price_step_function :
    (∀ (t : Int) (eid : String) (eh : EntityHistoryData),
      historyLookup eh eid = none →
      find_price_from_entity_history t eid eh = none)
    ∧ (∀ (t : Int) (eid : String) (eh : EntityHistoryData)
        (hist : List PriceEntry),
      historyLookup eh eid = some hist →
      hist.Sorted (fun a b => a.timestamp ≤ b.timestamp) →
      find_price_from_entity_history t eid eh
        = ((hist.filter fun e => decide (e.timestamp ≤ t)).getLast?).map
            (fun e => convert_price_unit e.value e.unit))
    ∧ (∀ (t : Int) (m : CostConfig) (ehd : EntityHistoryData),
      strTruthy m.entity_id = true → ehd.isEmpty = false →
      resolve_price t m (some ehd)
        = find_price_from_entity_history t (m.entity_id.getD "") ehd)
    ∧ (∀ (p : DataPoint) (rest : List DataPoint) (cfgs : List CostConfig)
        (eh : Option EntityHistoryData) (m : CostConfig),
      find_matching_cost_config p.date cfgs = some m →
      resolve_price p.date m eh = none →
      compute_costs (p :: rest) cfgs eh = compute_costs rest cfgs eh) := by
  refine ⟨fun t eid eh hl => ?_, fun t eid eh hist hl hs => ?_,
    fun t m ehd hm he => ?_, fun p rest cfgs eh m hm hp => ?_⟩
  · simp [find_price_from_entity_history, hl]
  · simp only [find_price_from_entity_history, hl]
    cases hist with
    | nil => rfl
    | cons e es =>
      simp only [List.isEmpty_cons, Bool.false_eq_true, if_false]
      rw [scanPriceHistory_sorted t (e :: es) none hs]
      cases hgl : ((e :: es).filter fun x => decide (x.timestamp ≤ t)).getLast?
        with
      | none => simp [hgl]
      | some x => simp [hgl]
  · simp [resolve_price, hm, ehTruthy, he]
  · simp [compute_costs, hm, hp]

/-- C4 witness: the step-function clause at a concrete two-sample history
(point at minute 600 picks the 09:00 sample, not the later one) and the
skip clause at a concrete entity rule with an empty history list for the
entity. -/
theorem find_price_step_function_witness :
    (historyLookup [("sensor.price", [⟨540, 15, some "c€/kWh"⟩, ⟨650, 20, none⟩])]
        "sensor.price"
        = some [⟨540, 15, some "c€/kWh"⟩, ⟨650, 20, none⟩]
      ∧ List.Sorted (fun a b => a.timestamp ≤ b.timestamp)
          ([⟨540, 15, some "c€/kWh"⟩, ⟨650, 20, none⟩] : List PriceEntry)
      ∧ find_price_from_entity_history 600 "sensor.price"
          [("sensor.price", [⟨540, 15, some "c€/kWh"⟩, ⟨650, 20, none⟩])]
        = ((([⟨540, 15, some "c€/kWh"⟩, ⟨650, 20, none⟩] : List PriceEntry).filter
              fun e => decide (e.timestamp ≤ 600)).getLast?).map
            (fun e => convert_price_unit e.value e.unit))
    ∧ (find_matching_cost_config 600
          [⟨none, some "sensor.price", none, none, none, none, none⟩]
        = some ⟨none, some "sensor.price", none, none, none, none, none⟩
      ∧ resolve_price 600
          (⟨none, some "sensor.price", none, none, none, none, none⟩ : CostConfig)
          (some [("sensor.price", [])]) = none
      ∧ compute_costs [⟨600, 1000⟩]
          [⟨none, some "sensor.price", none, none, none, none, none⟩]
          (some [("sensor.price", [])])
        = compute_costs []
            [⟨none, some "sensor.price", none, none, none, none, none⟩]
            (some [("sensor.price", [])])) :=
  ⟨⟨by decide, by decide,
      find_price_step_function.2.1 600 "sensor.price" _ _ (by decide)
        (by decide)⟩,
    ⟨by decide, by decide,
      find_price_step_function.2.2.2 ⟨600, 1000⟩ []
        [⟨none, some "sensor.price", none, none, none, none, none⟩]
        (some [("sensor.price", [])])
        ⟨none, some "sensor.price", none, none, none, none, none⟩
        (by decide) (by decide)⟩⟩

/-- C9: the hourly aggregator's output timestamps are sorted strictly
ascending (so no duplicate hour keys), the cost engine's output timestamps
form a subsequence of its energy input's timestamps, and consequently the
cost output preserves a strictly ascending energy input's order. -/
theorem series_ordering_invariant :
    (∀ data : List DataPoint,
      ((group_by_hour data).map fun p => p.date).Sorted (· < ·))
    ∧ (∀ (energy : List DataPoint) (cfgs : List CostConfig)
        (eh : Option EntityHistoryData),
      ((compute_costs energy cfgs eh).map fun p => p.date).Sublist
        (energy.map fun p => p.date))
    ∧ (∀ (energy : List DataPoint) (cfgs : List CostConfig)
        (eh : Option EntityHistoryData),
      (energy.map fun p => p.date).Sorted (· < ·) →
      ((compute_costs energy cfgs eh).map fun p => p.date).Sorted
        (· < ·)) := by
  refine ⟨fun data => ?_, compute_costs_dates_sublist,
    fun energy cfgs eh h =>
      List.Pairwise.sublist (compute_costs_dates_sublist energy cfgs eh) h⟩
  rw [group_by_hour_map_date]
  have hnd : ((data.map fun p => hourKey p.date).dedup).Nodup :=
    List.nodup_dedup _
  have hsorted := List.sorted_insertionSort (· ≤ ·)
    ((data.map fun p => hourKey p.date).dedup)
  have hperm := List.perm_insertionSort (· ≤ ·)
    ((data.map fun p => hourKey p.date).dedup)
  exact hsorted.lt_of_le (hperm.nodup_iff.mpr hnd)

/-- C9 witness: order preservation applied to a concrete strictly ascending
energy series. -/
theorem series_ordering_invariant_witness :
    (([⟨0, 1⟩, ⟨60, 2⟩] : List DataPoint).map fun p => p.date).Sorted (· < ·)
    ∧ ((compute_costs [⟨0, 1⟩, ⟨60, 2⟩] [flatRule 1] none).map
        fun p => p.date).Sorted (· < ·) :=
  ⟨by decide,
    series_ordering_invariant.2.2 [⟨0, 1⟩, ⟨60, 2⟩] [flatRule 1] none
      (by decide)⟩

/-- C8: `group_by_hour` is the identity on already-hourly data: any strictly
ascending series whose timestamps are already truncated to the hour and
whose values are already rounded to 2 decimals is returned unchanged. -/
theorem group_by_hour_idempotent (data : List DataPoint)
    (hsorted : (data.map fun p => p.date).Sorted (· < ·))
    (hhour : ∀ p ∈ data, hourKey p.date = p.date)
    (hround : ∀ p ∈ data, pyRound2 p.value = p.value) :
    group_by_hour data = data := by
  have hnd : (data.map fun p => p.date).Nodup := hsorted.nodup
  have hkeys : (data.map fun p => hourKey p.date) = data.map fun p => p.date :=
    List.map_congr_left (fun p hp => hhour p hp)
  have hle : (data.map fun p => p.date).Sorted (· ≤ ·) :=
    hsorted.imp (fun h => le_of_lt h)
  rw [group_by_hour, hkeys, List.dedup_eq_self.mpr hnd,
    List.Sorted.insertionSort_eq hle, List.map_map]
  have hpt : ∀ p ∈ data,
      ((fun k => (⟨k, pyRound2
          (((data.filter fun q => hourKey q.date = k).map DataPoint.value).sum
            / (((data.filter fun q => hourKey q.date = k).map
                DataPoint.value).length : ℚ))⟩ : DataPoint))
        ∘ fun p => p.date) p = p := by
    intro p hp
    have hfilter : (data.filter fun q => hourKey q.date = p.date) = [p] := by
      rw [List.filter_congr (fun q hq => by rw [hhour q hq])]
      exact filter_date_eq_singleton data p hnd hp
    simp only [Function.comp_apply, hfilter, List.map_cons, List.map_nil,
      List.sum_cons, List.sum_nil, List.length_cons, List.length_nil]
    have : (p.value + 0) / ((0 + 1 : ℕ) : ℚ) = p.value := by norm_num
    rw [this, hround p hp]
  rw [List.map_congr_left hpt, List.map_id']

/-- C8 witness: idempotence applied to a concrete two-point hourly series. -/
theorem group_by_hour_idempotent_witness :
    ((([⟨0, 1⟩, ⟨60, 2⟩] : List DataPoint).map fun p => p.date).Sorted (· < ·)
      ∧ (∀ p ∈ ([⟨0, 1⟩, ⟨60, 2⟩] : List DataPoint), hourKey p.date = p.date)
      ∧ (∀ p ∈ ([⟨0, 1⟩, ⟨60, 2⟩] : List DataPoint),
          pyRound2 p.value = p.value))
    ∧ group_by_hour [⟨0, 1⟩, ⟨60, 2⟩] = [⟨0, 1⟩, ⟨60, 2⟩] := by
  have hround : ∀ p ∈ ([⟨0, 1⟩, ⟨60, 2⟩] : List DataPoint),
      pyRound2 p.value = p.value := by
    intro p hp
    rcases List.mem_cons.mp hp with rfl | hp
    · norm_num [pyRound2, pyRound]
    · rcases List.mem_cons.mp hp with rfl | hp
      · norm_num [pyRound2, pyRound]
      · cases hp
  exact ⟨⟨by decide, by decide, hround⟩,
    group_by_hour_idempotent _ (by decide) (by decide) hround⟩

/-- C3 counterexample: with `since` 400 days in the past (today = day 19737,
since = day 19337) and all endpoints succeeding, the final daily tier's
request starts at day 19372 = today − 365, not at `since`, and the
limit-reached flag stays false — the claim's 400-days example never triggers
the clamp because the lookback is only 365 days. -/
theorem get_energy_data_since400_counterexample :
    ((get_energy_data Unit 19737 (some 19337)
        (fun _ _ => Except.ok []) (fun _ _ => Except.ok [])).2.1
      = [⟨19730, 19737, true⟩, ⟨19551, 19730, false⟩,
         ⟨19372, 19551, false⟩])
    ∧ (get_energy_data Unit 19737 (some 19337)
        (fun _ _ => Except.ok []) (fun _ _ => Except.ok [])).2.2 = false
    ∧ (19372 : Int) ≠ 19337 :=
  ⟨by decide, by decide, by decide⟩

/-- C3 (amended): whenever `since` (first_day) is provided, no issued request
starts before `since`, and a tier whose request starts exactly at `since`
(the clamped case — an unclamped tier's start is strictly after `since`) is
the last tier issued, with the limit-reached flag set, so no further tiers
run.  With `since` = 400 days ago the clamp never fires (the lookback is only
365 days); with `since` inside the lookback, e.g. 300 days ago (today = day
19737, since = day 19437), the final daily tier is clamped to `since` and
the flag is set. -/
theorem get_energy_data_clamps_at_since :
    (∀ (α : Type) (today fd : Int)
        (lc dl : Int → Int → Except String (List α)),
      ∀ c ∈ (get_energy_data α today (some fd) lc dl).2.1, fd ≤ c.start)
    ∧ (∀ (α : Type) (today fd : Int)
        (lc dl : Int → Int → Except String (List α)),
      ∀ c ∈ (get_energy_data α today (some fd) lc dl).2.1, c.start = fd →
        (get_energy_data α today (some fd) lc dl).2.2 = true
        ∧ (get_energy_data α today (some fd) lc dl).2.1.getLast? = some c)
    ∧ ((get_energy_data Unit 19737 (some 19437)
          (fun _ _ => Except.ok []) (fun _ _ => Except.ok [])).2.1
        = [⟨19730, 19737, true⟩, ⟨19551, 19730, false⟩,
           ⟨19437, 19551, false⟩]
      ∧ (get_energy_data Unit 19737 (some 19437)
          (fun _ _ => Except.ok []) (fun _ _ => Except.ok [])).2.2
        = true) :=
  ⟨fun α today fd lc dl => (get_energy_data_clamp_inv α today fd lc dl).1,
   fun α today fd lc dl => (get_energy_data_clamp_inv α today fd lc dl).2,
   by decide, by decide⟩

/-- C3 witness: the clamp invariants applied to the concrete 300-days-ago
run, at its clamped final call. -/
theorem get_energy_data_clamps_at_since_witness :
    ((⟨19437, 19551, false⟩ : FetchCall) ∈
        (get_energy_data Unit 19737 (some 19437)
          (fun _ _ => Except.ok []) (fun _ _ => Except.ok [])).2.1
      ∧ (⟨19437, 19551, false⟩ : FetchCall).start = 19437)
    ∧ (19437 : Int) ≤ (⟨19437, 19551, false⟩ : FetchCall).start
    ∧ ((get_energy_data Unit 19737 (some 19437)
          (fun _ _ => Except.ok []) (fun _ _ => Except.ok [])).2.2 = true
      ∧ (get_energy_data Unit 19737 (some 19437)
          (fun _ _ => Except.ok [])
          (fun _ _ => Except.ok [])).2.1.getLast?
        = some ⟨19437, 19551, false⟩) :=
  ⟨⟨by decide, rfl⟩,
    get_energy_data_clamps_at_since.1 Unit 19737 19437
      (fun _ _ => Except.ok []) (fun _ _ => Except.ok [])
      ⟨19437, 19551, false⟩ (by decide),
    get_energy_data_clamps_at_since.2.1 Unit 19737 19437
      (fun _ _ => Except.ok []) (fun _ _ => Except.ok [])
      ⟨19437, 19551, false⟩ (by decide) rfl⟩

end HaLinky
